import Mathlib

/-!
Verification development for the simulation-time state store and the
real-time state-synchronization client of this repository.

Shallow embedding conventions:
* `B160` addresses, `rU256` words, hashes and UUIDs are modelled as `Nat`.
* `Bytes` / `Bytecode` are modelled by their raw byte sequence `List Nat`;
  `to_analysed(Bytecode::new_raw(b))` is represented by `b` itself (the
  analysis pass does not change the observable byte content used here).
* Rust `HashMap`s are modelled as association lists with distinct keys;
  `insert` overwrites in place or appends, `remove` deletes the entry.
* A Rust `panic!` / `todo!` is modelled by the `PanicOr.panics` outcome.
* u128 arithmetic wraps modulo `2 ^ 128` (unchecked release semantics).
-/

/-- Association-list lookup, modelling `HashMap::get`. -/
def lookupA {κ α : Type} [DecidableEq κ] (k : κ) : List (κ × α) → Option α
  | [] => none
  | (k2, v2) :: rest => if k2 = k then some v2 else lookupA k rest

/-- Association-list insert, modelling `HashMap::insert`: overwrites the
binding of an existing key in place, otherwise appends a new binding. -/
def insertA {κ α : Type} [DecidableEq κ] (k : κ) (v : α) : List (κ × α) → List (κ × α)
  | [] => [(k, v)]
  | (k2, v2) :: rest => if k2 = k then (k, v) :: rest else (k2, v2) :: insertA k v rest

/-- Association-list removal, modelling `HashMap::remove`. -/
def removeA {κ α : Type} [DecidableEq κ] (k : κ) : List (κ × α) → List (κ × α)
  | [] => []
  | (k2, v2) :: rest => if k2 = k then rest else (k2, v2) :: removeA k rest

/-- Outcome of a Rust call that may `panic!` instead of returning. -/
inductive PanicOr (α : Type) where
  | panics (msg : String)
  | returns (val : α)
deriving DecidableEq

/-! ## storage.rs : data model -/

/-- `BlockHeader` (storage.rs lines 60-64). -/
structure BlockHeader where
  number : Nat
  hash : Nat
  timestamp : Nat
deriving DecidableEq

/-- `StateUpdate` (storage.rs lines 66-70): per-account diff, also the shape
of revert records. -/
structure StateUpdate where
  storage : Option (List (Nat × Nat))
  balance : Option Nat
  code : Option (List Nat)
deriving DecidableEq

/-- revm `AccountInfo`: balance, nonce, code hash and optional bytecode. -/
structure AccountInfo where
  balance : Nat
  nonce : Nat
  code_hash : Nat
  code : Option (List Nat)
deriving DecidableEq

/-- A cached account entry of the external database (revm `DbAccount`):
basic info plus a storage map. -/
structure DbAccount where
  info : AccountInfo
  storage : List (Nat × Nat)
deriving DecidableEq

/-- `SimulationDB` (storage.rs lines 72-81).  The generic external database
`external_db : ExtDB` is modelled by its observable interface: the account
cache `accounts` (the `external_db.accounts` map read and mutated by
`update_state`), the pinned block `external_block` (`external_db.block`),
and pure response functions `external_basic` / `external_storage` for the
queries that the `Database` impl forwards to it. -/
structure SimulationDB where
  external_basic : Nat → Option AccountInfo
  external_storage : Nat → Nat → Nat
  accounts : List (Nat × DbAccount)
  external_block : Option Nat
  missed_accounts : List Nat
  mocked_accounts : List Nat
  block : Option BlockHeader

/-! ## storage.rs : the `Database` impl for `SimulationDB` (lines 208-245)

These four functions embed the code that is active (not commented out) in
the source.  To make query behaviour observable, `basic` also returns the
(unchanged) store state, and `storage` additionally returns the list of
`(address, slot)` queries forwarded to the external database. -/

/-- `SimulationDB::basic` (storage.rs lines 211-214).  The `track_miss`
call at line 212 is commented out in the source, so the call forwards to
`external_db` and leaves every field of the store untouched. -/
def SimulationDB.basic (db : SimulationDB) (address : Nat) :
    Option AccountInfo × SimulationDB :=
  (db.external_basic address, db)

/-- `SimulationDB::code_by_hash` (storage.rs lines 216-218). -/
def SimulationDB.code_by_hash (_db : SimulationDB) (_code_hash : Nat) :
    PanicOr (List Nat) :=
  .panics ("Not implemented")

/-- `SimulationDB::storage` (storage.rs lines 220-240).  The mocked-account
check described by the comment at lines 224-227 is commented out in the
source; the active code is exactly the fallthrough at line 238, which
forwards every read to the external database.  The third component records
the external queries issued by the call. -/
def SimulationDB.storage (db : SimulationDB) (address : Nat) (index : Nat) :
    Nat × SimulationDB × List (Nat × Nat) :=
  (db.external_storage address index, db, [(address, index)])

/-- `SimulationDB::block_hash` (storage.rs lines 242-244): `todo!()`,
which panics with the message below. -/
def SimulationDB.block_hash (_db : SimulationDB) (_number : Nat) :
    PanicOr Nat :=
  .panics ("not yet implemented")

/-! ## storage.rs : `update_state` (lines 162-204)

`update_state` is present in the source as a commented-out block; the
claims cite those lines, so it is embedded here exactly as written there. -/

/-- Inner loop of the storage diff (storage.rs lines 189-193):
for each `(slot, value)` of the diff, `account.storage.insert(slot, value)`
is performed and, only when the insert returned a previous value, that
previous value is recorded in the revert storage.  Arguments: remaining
diff entries, current account storage, accumulated revert storage. -/
def applyStorageUpdates :
    List (Nat × Nat) → List (Nat × Nat) → List (Nat × Nat) →
    List (Nat × Nat) × List (Nat × Nat)
  | [], stor, rev => (stor, rev)
  | (slot, value) :: rest, stor, rev =>
    match lookupA slot stor with
    | some previous => applyStorageUpdates rest (insertA slot value stor) (insertA slot previous rev)
    | none => applyStorageUpdates rest (insertA slot value stor) rev

/-- Per-account body of `update_state` (storage.rs lines 177-195):
sequentially applies the code, balance and storage parts of the diff to a
tracked account, accumulating the revert entry.  Returns the updated
account and the revert entry. -/
def applyAccountUpdate (update_info : StateUpdate) (account0 : DbAccount) :
    DbAccount × StateUpdate :=
  let step1 : DbAccount × StateUpdate :=
    match update_info.code with
    | some new_code =>
      ({ account0 with info := { account0.info with code := some new_code } },
       { storage := none, balance := none, code := account0.info.code })
    | none => (account0, { storage := none, balance := none, code := none })
  let step2 : DbAccount × StateUpdate :=
    match update_info.balance with
    | some new_balance =>
      ({ step1.1 with info := { step1.1.info with balance := new_balance } },
       { step1.2 with balance := some step1.1.info.balance })
    | none => step1
  match update_info.storage with
  | some stor =>
    let res := applyStorageUpdates stor step2.1.storage []
    ({ step2.1 with storage := res.1 }, { step2.2 with storage := some res.2 })
  | none => step2

/-- Iteration of `update_state` over the update map (storage.rs lines
170-202).  A tracked address gets the diff applied and a revert entry
recorded; an untracked address is skipped — the source holds only a
TODO comment about raising a warning there, so the skip produces no
observable effect at all. -/
def update_state_go :
    List (Nat × StateUpdate) → SimulationDB → List (Nat × StateUpdate) →
    SimulationDB × List (Nat × StateUpdate)
  | [], db, revert_updates => (db, revert_updates)
  | (address, update_info) :: rest, db, revert_updates =>
    match lookupA address db.accounts with
    | some account =>
      let res := applyAccountUpdate update_info account
      update_state_go rest { db with accounts := insertA address res.1 db.accounts }
        (insertA address res.2 revert_updates)
    | none => update_state_go rest db revert_updates

/-- `SimulationDB::update_state` (storage.rs lines 162-204): pins the new
block on the external database and the store, then applies each
per-address diff, returning the revert map. -/
def update_state (db : SimulationDB) (update : List (Nat × StateUpdate))
    (block : BlockHeader) : SimulationDB × List (Nat × StateUpdate) :=
  update_state_go update
    { db with external_block := some block.number, block := some block } []

/-! ## protocol/uniswap_v3/liquidity_math.rs -/

/-- `add_liquidity_delta` (liquidity_math.rs lines 2-8): unchecked u128
update of a liquidity value by a signed delta.  u128 arithmetic is
modelled modulo `2 ^ 128`; for `y < 0` the Rust expression `-y as u128`
equals `(-y).toNat` for every representable `y` (including `i128::MIN`,
whose wrapping negation reinterprets as `2 ^ 127`). -/
def add_liquidity_delta (x : Nat) (y : Int) : Nat :=
  if y < 0 then (x + 2 ^ 128 - (-y).toNat) % 2 ^ 128
  else (x + y.toNat) % 2 ^ 128

/-! ## tycho_models data shapes

The module `tycho_models.rs` is not among the provided sources; the
following carrier types are modelled from the spec (section 6) and from
the constructors matched on in tycho_client.rs. -/

/-- Modelled from the spec: the `Chain` enum of tycho_models (only
`Ethereum` is used by the client). -/
inductive Chain where
  | ethereum
deriving DecidableEq

/-- Modelled from the spec: `ExtractorIdentity` — a chain together with an
extractor handle. -/
structure ExtractorIdentity where
  chain : Chain
  name : String
deriving DecidableEq

/-- Modelled from the spec: tycho_models `Block`. -/
structure Block where
  number : Nat
  hash : Nat
  parent_hash : Nat
  chain : Chain
  ts : Nat
deriving DecidableEq

/-- Modelled from the spec: tycho_models `ChangeType`. -/
inductive ChangeType where
  | update
  | creation
  | deletion
deriving DecidableEq

/-- Modelled from the spec: tycho_models `AccountUpdate`. -/
structure AccountUpdate where
  address : Nat
  chain : Chain
  slots : List (Nat × Nat)
  balance : Option Nat
  code : Option (List Nat)
  change : ChangeType
deriving DecidableEq

/-- Modelled from the spec: tycho_models `BlockAccountChanges`, the
state-change event forwarded to the consumer channel.  The read loop
treats it as an opaque payload. -/
structure BlockAccountChanges where
  extractor : String
  chain : Chain
  block : Block
  account_updates : List (Nat × AccountUpdate)
  new_pools : List (Nat × Nat)
deriving DecidableEq

/-- Modelled from the spec: tycho_models `Response`, the control half of
the tagged server-to-client union. -/
inductive Response where
  | newSubscription (extractor_id : ExtractorIdentity) (subscription_id : Nat)
  | subscriptionEnded (subscription_id : Nat)
deriving DecidableEq

/-- Modelled from the spec: tycho_models `WebSocketMessage`, the tagged
server-to-client envelope. -/
inductive WebSocketMessage where
  | blockAccountChanges (b : BlockAccountChanges)
  | response (r : Response)
deriving DecidableEq

/-! ## tycho_client.rs -/

/-- `TychoClientError` (tycho_client.rs lines 25-35). -/
inductive TychoClientError where
  | urlParsing (url : String) (msg : String)
  | formatRequest (msg : String)
  | httpClient (msg : String)
  | parseResponse (msg : String)
deriving DecidableEq

/-- `TychoWsClientImpl` (tycho_client.rs lines 129-131). -/
structure TychoWsClientImpl where
  url : String
deriving DecidableEq

/-- `TychoWsClientImpl::subscribe` (tycho_client.rs lines 162-164). -/
def TychoWsClientImpl.subscribe (_self : TychoWsClientImpl)
    (_extractor_id : ExtractorIdentity) : PanicOr (Except TychoClientError Unit) :=
  .panics ("Not implemented")

/-- `TychoWsClientImpl::unsubscribe` (tycho_client.rs lines 166-169). -/
def TychoWsClientImpl.unsubscribe (_self : TychoWsClientImpl)
    (_subscription_id : Nat) : PanicOr (Except TychoClientError Unit) :=
  .panics ("Not implemented")

/-- An inbound frame as seen by the read loop of `realtime_messages`
(tycho_client.rs lines 201-250).  A `text` frame carries the result of
`serde_json::from_str::<WebSocketMessage>`: `none` models a frame that
fails to deserialize.  `other` covers the remaining tungstenite message
kinds (Binary, Frame), which fall into the catch-all arm. -/
inductive InMsg where
  | text (decoded : Option WebSocketMessage)
  | ping (payload : List Nat)
  | pong (payload : List Nat)
  | close
  | other
deriving DecidableEq

/-- State threaded through the read loop of `realtime_messages`:
the events queued on `tx` in FIFO order, the `active_extractors` map, and
the number of Pong replies sent. -/
structure LoopState where
  sent : List BlockAccountChanges
  active_extractors : List (Nat × ExtractorIdentity)
  pongs_sent : Nat
deriving DecidableEq

/-- How the read loop of `realtime_messages` can end.  `finished` models a
graceful end (Close frame, or `ws.read()` failing once the input is
exhausted), after which the receiver is returned to the caller.
`panicked` models an `expect` firing on the loop thread.
`blockedForever` models `tx.blocking_send` on a full channel: the whole
loop, including the send, runs on the calling thread before the receiver
is returned, so no consumer exists to drain the channel and the send can
never complete. -/
inductive LoopOutcome where
  | finished (s : LoopState)
  | panicked (msg : String)
  | blockedForever (s : LoopState)
deriving DecidableEq

/-- Result of handling a single frame: continue the loop or stop it. -/
inductive StepRes where
  | cont (s : LoopState)
  | halt (o : LoopOutcome)
deriving DecidableEq

/-- The channel passed to `mpsc::channel` at tycho_client.rs line 173. -/
def channelCapacity : Nat := 30

/-- Body of the `while let Ok(msg) = ws.read()` loop (tycho_client.rs
lines 201-249), one frame at a time. -/
def handleFrame (msg : InMsg) (s : LoopState) : StepRes :=
  match msg with
  | .text none => .cont s
  | .text (some (.blockAccountChanges b)) =>
    if s.sent.length < channelCapacity then .cont { s with sent := s.sent ++ [b] }
    else .halt (.blockedForever s)
  | .text (some (.response (.newSubscription eid sid))) =>
    .cont { s with active_extractors := insertA sid eid s.active_extractors }
  | .text (some (.response (.subscriptionEnded sid))) =>
    match lookupA sid s.active_extractors with
    | some _ => .cont { s with active_extractors := removeA sid s.active_extractors }
    | none => .halt (.panicked ("subscription id in active extractors"))
  | .ping _ => .cont { s with pongs_sent := s.pongs_sent + 1 }
  | .pong _ => .cont s
  | .close => .halt (.finished s)
  | .other => .cont s

/-- The read loop of `realtime_messages` over a finite inbound frame
sequence; the list ending models `ws.read()` returning an error. -/
def processMsgs : List InMsg → LoopState → LoopOutcome
  | [], s => .finished s
  | msg :: rest, s =>
    match handleFrame msg s with
    | .cont s2 => processMsgs rest s2
    | .halt o => o

/-- `TychoWsClientImpl::realtime_messages` (tycho_client.rs lines
171-254): runs the entire read loop on the calling thread and only then
returns the receiver.  `some (events, active)` models the receiver handed
to the caller with `events` queued in FIFO order; `none` models a call
that never returns a usable receiver (loop panicked or blocked forever). -/
def realtime_messages (frames : List InMsg) :
    Option (List BlockAccountChanges × List (Nat × ExtractorIdentity)) :=
  match processMsgs frames { sent := [], active_extractors := [], pongs_sent := 0 } with
  | .finished s => some (s.sent, s.active_extractors)
  | .panicked _ => none
  | .blockedForever _ => none

/-- The `BlockAccountChanges` events carried by a frame sequence, in
arrival order. -/
def bacList : List InMsg → List BlockAccountChanges
  | [] => []
  | .text (some (.blockAccountChanges b)) :: rest => b :: bacList rest
  | .text (some (.response _)) :: rest => bacList rest
  | .text none :: rest => bacList rest
  | .ping _ :: rest => bacList rest
  | .pong _ :: rest => bacList rest
  | .close :: rest => bacList rest
  | .other :: rest => bacList rest

/-- Whether a frame sequence contains a Close frame. -/
def hasClose : List InMsg → Bool
  | [] => false
  | .close :: _ => true
  | _ :: rest => hasClose rest

/-- Subscription safety of a frame sequence with respect to a current
active-subscription map: every `SubscriptionEnded` names a currently
active subscription id (otherwise the loop's `expect` fires). -/
def subSafe (active : List (Nat × ExtractorIdentity)) : List InMsg → Bool
  | [] => true
  | .text (some (.response (.newSubscription eid sid))) :: rest =>
    subSafe (insertA sid eid active) rest
  | .text (some (.response (.subscriptionEnded sid))) :: rest =>
    match lookupA sid active with
    | some _ => subSafe (removeA sid active) rest
    | none => false
  | .text (some (.blockAccountChanges _)) :: rest => subSafe active rest
  | .text none :: rest => subSafe active rest
  | .ping _ :: rest => subSafe active rest
  | .pong _ :: rest => subSafe active rest
  | .close :: rest => subSafe active rest
  | .other :: rest => subSafe active rest

/-- A frame carrying one state-change event. -/
def bacFrame (b : BlockAccountChanges) : InMsg :=
  .text (some (.blockAccountChanges b))

/-- A frame carrying a `NewSubscription` response. -/
def newSubscriptionFrame (eid : ExtractorIdentity) (sid : Nat) : InMsg :=
  .text (some (.response (.newSubscription eid sid)))

/-- A frame carrying a `SubscriptionEnded` response. -/
def subscriptionEndedFrame (sid : Nat) : InMsg :=
  .text (some (.response (.subscriptionEnded sid)))

/-- A text frame that fails to deserialize. -/
def malformedFrame : InMsg := .text none

/-! ## Concrete fixtures used by counterexamples and witnesses -/

/-- A store tracking one account at address 1 with empty storage. -/
def acctC : DbAccount :=
  { info := { balance := 100, nonce := 0, code_hash := 0, code := some [1] }, storage := [] }

/-- Fixture store for the revert-record counterexample. -/
def dbC : SimulationDB :=
  { external_basic := fun _ => none, external_storage := fun _ _ => 0,
    accounts := [(1, acctC)], external_block := none,
    missed_accounts := [], mocked_accounts := [], block := none }

/-- A diff writing slot 2 (absent in `acctC`) of address 1. -/
def uC : StateUpdate := { storage := some [(2, 5)], balance := none, code := none }

/-- Fixture block header. -/
def blkC : BlockHeader := { number := 1, hash := 0, timestamp := 0 }

/-- Fixture store with a mocked account at address 5 whose external source
would answer 7 for every storage read. -/
def dbM : SimulationDB :=
  { external_basic := fun _ => none, external_storage := fun _ _ => 7,
    accounts := [], external_block := none,
    missed_accounts := [], mocked_accounts := [5], block := none }

/-- Account info returned by the external source of `dbB3`. -/
def acctB3 : AccountInfo := { balance := 42, nonce := 0, code_hash := 0, code := none }

/-- Fixture store with an empty cache and empty missed set whose external
source answers `acctB3` for every address. -/
def dbB3 : SimulationDB :=
  { external_basic := fun _ => some acctB3, external_storage := fun _ _ => 0,
    accounts := [], external_block := none,
    missed_accounts := [], mocked_accounts := [], block := none }

/-- Fixture store with no tracked accounts. -/
def dbU : SimulationDB :=
  { external_basic := fun _ => none, external_storage := fun _ _ => 0,
    accounts := [], external_block := none,
    missed_accounts := [], mocked_accounts := [], block := none }

/-- A balance diff for the untracked address 7. -/
def uU : StateUpdate := { storage := none, balance := some 5, code := none }

/-- Tracked account fixture for the round-trip witness. -/
def acctW : DbAccount :=
  { info := { balance := 7, nonce := 1, code_hash := 0, code := some [9] },
    storage := [(2, 3)] }

/-- Fixture store for the round-trip witness. -/
def dbW : SimulationDB :=
  { external_basic := fun _ => none, external_storage := fun _ _ => 0,
    accounts := [(1, acctW)], external_block := none,
    missed_accounts := [], mocked_accounts := [], block := none }

/-- A diff touching storage, balance and code for the round-trip witness. -/
def uW : StateUpdate := { storage := some [(2, 5)], balance := some 100, code := some [4] }

/-- Fixture state-change event (the block-123 scenario of the spec). -/
def bac0 : BlockAccountChanges :=
  { extractor := "vm:ambient", chain := .ethereum,
    block := { number := 123, hash := 0, parent_hash := 0, chain := .ethereum, ts := 0 },
    account_updates := [], new_pools := [] }

/-- Fixture extractor identity. -/
def eid0 : ExtractorIdentity := { chain := .ethereum, name := "vm:ambient" }

/-! ## Association-list lemmas -/

theorem lookupA_insertA_self {κ α : Type} [DecidableEq κ] (m : List (κ × α)) (k : κ) (v : α) :
    lookupA k (insertA k v m) = some v := by
  induction m with
  | nil => simp [insertA, lookupA]
  | cons p rest ih =>
    obtain ⟨k2, v2⟩ := p
    by_cases h : k2 = k
    · simp [insertA, lookupA, h]
    · simp [insertA, lookupA, h, ih]

theorem lookupA_insertA_ne {κ α : Type} [DecidableEq κ] (m : List (κ × α)) (k k2 : κ) (v : α)
    (hne : k2 ≠ k) : lookupA k2 (insertA k v m) = lookupA k2 m := by
  induction m with
  | nil => simp [insertA, lookupA, hne.symm]
  | cons p rest ih =>
    obtain ⟨a, b⟩ := p
    by_cases h : a = k
    · subst h
      simp [insertA, lookupA, hne.symm]
    · by_cases h2 : a = k2
      · simp [insertA, lookupA, h, h2, hne]
      · simp [insertA, lookupA, h, h2, ih]

theorem mem_keys_insertA {κ α : Type} [DecidableEq κ] (m : List (κ × α)) (k x : κ) (v : α) :
    x ∈ (insertA k v m).map Prod.fst ↔ x = k ∨ x ∈ m.map Prod.fst := by
  induction m with
  | nil => simp [insertA]
  | cons p rest ih =>
    obtain ⟨a, b⟩ := p
    by_cases h : a = k
    · subst h
      simp [insertA]
    · simp only [insertA, if_neg h, List.map_cons, List.mem_cons, ih]
      tauto

theorem keys_nodup_insertA {κ α : Type} [DecidableEq κ] (m : List (κ × α)) (k : κ) (v : α)
    (h : (m.map Prod.fst).Nodup) : ((insertA k v m).map Prod.fst).Nodup := by
  induction m with
  | nil => simp [insertA]
  | cons p rest ih =>
    obtain ⟨a, b⟩ := p
    simp only [List.map_cons, List.nodup_cons] at h
    obtain ⟨ha, hrest⟩ := h
    by_cases hk : a = k
    · subst hk
      simp [insertA, List.nodup_cons, ha, hrest]
    · simp only [insertA, if_neg hk, List.map_cons, List.nodup_cons]
      refine ⟨fun hmem => ?_, ih hrest⟩
      rcases (mem_keys_insertA rest k a v).mp hmem with h1 | h2
      · exact hk h1
      · exact ha h2

theorem lookupA_eq_none {κ α : Type} [DecidableEq κ] (m : List (κ × α)) (k : κ)
    (h : k ∉ m.map Prod.fst) : lookupA k m = none := by
  induction m with
  | nil => rfl
  | cons p rest ih =>
    obtain ⟨a, b⟩ := p
    simp only [List.map_cons, List.mem_cons] at h
    push_neg at h
    obtain ⟨h1, h2⟩ := h
    simp [lookupA, h1.symm, ih h2]

theorem lookupA_removeA_self {κ α : Type} [DecidableEq κ] (m : List (κ × α)) (k : κ)
    (h : (m.map Prod.fst).Nodup) : lookupA k (removeA k m) = none := by
  induction m with
  | nil => rfl
  | cons p rest ih =>
    obtain ⟨a, b⟩ := p
    simp only [List.map_cons, List.nodup_cons] at h
    obtain ⟨ha, hrest⟩ := h
    by_cases hk : a = k
    · subst hk
      simp [removeA, lookupA_eq_none rest a ha]
    · simp [removeA, hk, lookupA, ih hrest]

/-! ## Lemmas about the storage-diff loop -/

theorem applyStorageUpdates_cons (k v0 : Nat) (rest stor rev : List (Nat × Nat)) :
    applyStorageUpdates ((k, v0) :: rest) stor rev =
      applyStorageUpdates rest (insertA k v0 stor)
        (match lookupA k stor with
         | some previous => insertA k previous rev
         | none => rev) := by
  cases h : lookupA k stor <;> simp [applyStorageUpdates, h]

theorem applyStorageUpdates_fst_lookup :
    ∀ (d stor rev : List (Nat × Nat)) (slot : Nat), (d.map Prod.fst).Nodup →
    lookupA slot (applyStorageUpdates d stor rev).1 =
      match lookupA slot d with
      | some v => some v
      | none => lookupA slot stor := by
  intro d
  induction d with
  | nil =>
    intro stor rev slot _
    simp [applyStorageUpdates, lookupA]
  | cons p rest ih =>
    intro stor rev slot hnd
    obtain ⟨k, v0⟩ := p
    simp only [List.map_cons, List.nodup_cons] at hnd
    obtain ⟨hk, hrest⟩ := hnd
    rw [applyStorageUpdates_cons, ih _ _ _ hrest]
    by_cases hs : k = slot
    · subst hs
      simp [lookupA_eq_none rest k hk, lookupA_insertA_self, lookupA]
    · simp [lookupA, hs, lookupA_insertA_ne stor k slot v0 (Ne.symm hs)]

theorem applyStorageUpdates_snd_lookup :
    ∀ (d stor rev : List (Nat × Nat)) (slot : Nat), (d.map Prod.fst).Nodup →
    lookupA slot (applyStorageUpdates d stor rev).2 =
      match lookupA slot d with
      | some _ =>
        match lookupA slot stor with
        | some w => some w
        | none => lookupA slot rev
      | none => lookupA slot rev := by
  intro d
  induction d with
  | nil =>
    intro stor rev slot _
    simp [applyStorageUpdates, lookupA]
  | cons p rest ih =>
    intro stor rev slot hnd
    obtain ⟨k, v0⟩ := p
    simp only [List.map_cons, List.nodup_cons] at hnd
    obtain ⟨hk, hrest⟩ := hnd
    rw [applyStorageUpdates_cons, ih _ _ _ hrest]
    by_cases hs : k = slot
    · subst hs
      rw [lookupA_eq_none rest k hk]
      cases hkst : lookupA k stor with
      | some prev => simp [lookupA, hkst, lookupA_insertA_self]
      | none => simp [lookupA, hkst]
    · have hsym : slot ≠ k := Ne.symm hs
      cases hkst : lookupA k stor with
      | some prev =>
        simp [lookupA, hs, hkst, lookupA_insertA_ne stor k slot v0 hsym,
          lookupA_insertA_ne rev k slot prev hsym]
      | none =>
        simp [lookupA, hs, hkst, lookupA_insertA_ne stor k slot v0 hsym]

theorem applyStorageUpdates_snd_keys_nodup :
    ∀ (d stor rev : List (Nat × Nat)), (rev.map Prod.fst).Nodup →
    (((applyStorageUpdates d stor rev).2).map Prod.fst).Nodup := by
  intro d
  induction d with
  | nil =>
    intro stor rev h
    simpa [applyStorageUpdates] using h
  | cons p rest ih =>
    intro stor rev h
    obtain ⟨k, v0⟩ := p
    rw [applyStorageUpdates_cons]
    cases hkst : lookupA k stor with
    | some prev => exact ih _ _ (keys_nodup_insertA rev k prev h)
    | none => exact ih _ _ h

/-! ## Projections of the per-account update -/

theorem applyAccountUpdate_fst_balance (u : StateUpdate) (acct : DbAccount) :
    (applyAccountUpdate u acct).1.info.balance =
      match u.balance with
      | some b => b
      | none => acct.info.balance := by
  obtain ⟨us, ub, uc⟩ := u
  cases us <;> cases ub <;> cases uc <;> simp [applyAccountUpdate]

theorem applyAccountUpdate_snd_balance (u : StateUpdate) (acct : DbAccount) :
    (applyAccountUpdate u acct).2.balance =
      match u.balance with
      | some _ => some acct.info.balance
      | none => none := by
  obtain ⟨us, ub, uc⟩ := u
  cases us <;> cases ub <;> cases uc <;> simp [applyAccountUpdate]

theorem applyAccountUpdate_fst_code (u : StateUpdate) (acct : DbAccount) :
    (applyAccountUpdate u acct).1.info.code =
      match u.code with
      | some c => some c
      | none => acct.info.code := by
  obtain ⟨us, ub, uc⟩ := u
  cases us <;> cases ub <;> cases uc <;> simp [applyAccountUpdate]

theorem applyAccountUpdate_snd_code (u : StateUpdate) (acct : DbAccount) :
    (applyAccountUpdate u acct).2.code =
      match u.code with
      | some _ => acct.info.code
      | none => none := by
  obtain ⟨us, ub, uc⟩ := u
  cases us <;> cases ub <;> cases uc <;> simp [applyAccountUpdate]

theorem applyAccountUpdate_fst_nonce (u : StateUpdate) (acct : DbAccount) :
    (applyAccountUpdate u acct).1.info.nonce = acct.info.nonce := by
  obtain ⟨us, ub, uc⟩ := u
  cases us <;> cases ub <;> cases uc <;> simp [applyAccountUpdate]

theorem applyAccountUpdate_fst_storage (u : StateUpdate) (acct : DbAccount) :
    (applyAccountUpdate u acct).1.storage =
      match u.storage with
      | some d => (applyStorageUpdates d acct.storage []).1
      | none => acct.storage := by
  obtain ⟨us, ub, uc⟩ := u
  cases us <;> cases ub <;> cases uc <;> simp [applyAccountUpdate]

theorem applyAccountUpdate_snd_storage (u : StateUpdate) (acct : DbAccount) :
    (applyAccountUpdate u acct).2.storage =
      match u.storage with
      | some d => some (applyStorageUpdates d acct.storage []).2
      | none => none := by
  obtain ⟨us, ub, uc⟩ := u
  cases us <;> cases ub <;> cases uc <;> simp [applyAccountUpdate]

/-- Round-trip behaviour of the per-account apply/revert pair: the revert
record restores balance, nonce, previously present code, and every slot
that was present in storage before the update. -/
theorem applyAccountUpdate_roundtrip (acct : DbAccount) (u : StateUpdate)
    (hnodup : (((u.storage.getD []).map Prod.fst)).Nodup) :
    (applyAccountUpdate (applyAccountUpdate u acct).2 (applyAccountUpdate u acct).1).1.info.balance
        = acct.info.balance ∧
    (applyAccountUpdate (applyAccountUpdate u acct).2 (applyAccountUpdate u acct).1).1.info.nonce
        = acct.info.nonce ∧
    (acct.info.code.isSome = true →
      (applyAccountUpdate (applyAccountUpdate u acct).2 (applyAccountUpdate u acct).1).1.info.code
        = acct.info.code) ∧
    (∀ slot v, lookupA slot acct.storage = some v →
      lookupA slot
        (applyAccountUpdate (applyAccountUpdate u acct).2 (applyAccountUpdate u acct).1).1.storage
        = some v) := by
  refine ⟨?_, ?_, ?_, ?_⟩
  · rw [applyAccountUpdate_fst_balance, applyAccountUpdate_snd_balance,
      applyAccountUpdate_fst_balance]
    cases u.balance <;> simp
  · rw [applyAccountUpdate_fst_nonce, applyAccountUpdate_fst_nonce]
  · intro hcode
    obtain ⟨c0, hc0⟩ := Option.isSome_iff_exists.mp hcode
    rw [applyAccountUpdate_fst_code, applyAccountUpdate_snd_code,
      applyAccountUpdate_fst_code]
    cases u.code <;> simp [hc0]
  · intro slot v hv
    rw [applyAccountUpdate_fst_storage, applyAccountUpdate_snd_storage,
      applyAccountUpdate_fst_storage]
    cases hus : u.storage with
    | none => simpa using hv
    | some d =>
      rw [hus] at hnodup
      simp only [Option.getD] at hnodup
      have hRnodup : (((applyStorageUpdates d acct.storage []).2).map Prod.fst).Nodup :=
        applyStorageUpdates_snd_keys_nodup d acct.storage [] (by simp)
      simp only []
      rw [applyStorageUpdates_fst_lookup _ _ _ slot hRnodup]
      rw [applyStorageUpdates_snd_lookup d acct.storage [] slot hnodup]
      cases hd : lookupA slot d with
      | some w =>
        simp [hv, lookupA]
      | none =>
        rw [applyStorageUpdates_fst_lookup d acct.storage [] slot hnodup]
        simp [hd, hv, lookupA]

/-! ## Lemmas about the read loop -/

theorem processMsgs_finishes :
    ∀ (frames : List InMsg) (s : LoopState),
    subSafe s.active_extractors frames = true →
    hasClose frames = false →
    s.sent.length + (bacList frames).length ≤ channelCapacity →
    ∃ s2, processMsgs frames s = .finished s2 ∧ s2.sent = s.sent ++ bacList frames := by
  intro frames
  induction frames with
  | nil =>
    intro s _ _ _
    exact ⟨s, rfl, by simp [bacList]⟩
  | cons m rest ih =>
    intro s hsafe hclose hcap
    cases m with
    | text dec =>
      cases dec with
      | none =>
        simp only [subSafe] at hsafe
        simp only [hasClose] at hclose
        simp only [bacList] at hcap
        simpa [processMsgs, handleFrame, bacList] using ih s hsafe hclose hcap
      | some w =>
        cases w with
        | blockAccountChanges b =>
          simp only [subSafe] at hsafe
          simp only [hasClose] at hclose
          simp only [bacList, List.length_cons] at hcap
          have hlt : s.sent.length < channelCapacity := by omega
          obtain ⟨s2, h1, h2⟩ := ih { s with sent := s.sent ++ [b] } hsafe hclose
            (by simp only [List.length_append, List.length_cons, List.length_nil]; omega)
          refine ⟨s2, ?_, ?_⟩
          · simpa [processMsgs, handleFrame, hlt] using h1
          · simp [h2, bacList]
        | response r =>
          cases r with
          | newSubscription eid sid =>
            simp only [subSafe] at hsafe
            simp only [hasClose] at hclose
            simp only [bacList] at hcap
            simpa [processMsgs, handleFrame, bacList] using
              ih { s with active_extractors := insertA sid eid s.active_extractors }
                hsafe hclose hcap
          | subscriptionEnded sid =>
            simp only [hasClose] at hclose
            simp only [bacList] at hcap
            cases hl : lookupA sid s.active_extractors with
            | none => simp [subSafe, hl] at hsafe
            | some e =>
              simp only [subSafe, hl] at hsafe
              simpa [processMsgs, handleFrame, hl, bacList] using
                ih { s with active_extractors := removeA sid s.active_extractors }
                  hsafe hclose hcap
    | ping p =>
      simp only [subSafe] at hsafe
      simp only [hasClose] at hclose
      simp only [bacList] at hcap
      simpa [processMsgs, handleFrame, bacList] using
        ih { s with pongs_sent := s.pongs_sent + 1 } hsafe hclose hcap
    | pong p =>
      simp only [subSafe] at hsafe
      simp only [hasClose] at hclose
      simp only [bacList] at hcap
      simpa [processMsgs, handleFrame, bacList] using ih s hsafe hclose hcap
    | close => simp [hasClose] at hclose
    | other =>
      simp only [subSafe] at hsafe
      simp only [hasClose] at hclose
      simp only [bacList] at hcap
      simpa [processMsgs, handleFrame, bacList] using ih s hsafe hclose hcap

theorem processMsgs_blocks :
    ∀ (frames : List InMsg) (s : LoopState),
    subSafe s.active_extractors frames = true →
    hasClose frames = false →
    s.sent.length ≤ channelCapacity →
    channelCapacity < s.sent.length + (bacList frames).length →
    ∃ s2, processMsgs frames s = .blockedForever s2 := by
  intro frames
  induction frames with
  | nil =>
    intro s _ _ hle hover
    simp only [bacList, List.length_nil] at hover
    omega
  | cons m rest ih =>
    intro s hsafe hclose hle hover
    cases m with
    | text dec =>
      cases dec with
      | none =>
        simp only [subSafe] at hsafe
        simp only [hasClose] at hclose
        simp only [bacList] at hover
        simpa [processMsgs, handleFrame] using ih s hsafe hclose hle hover
      | some w =>
        cases w with
        | blockAccountChanges b =>
          simp only [subSafe] at hsafe
          simp only [hasClose] at hclose
          simp only [bacList, List.length_cons] at hover
          by_cases hlt : s.sent.length < channelCapacity
          · obtain ⟨s2, h1⟩ := ih { s with sent := s.sent ++ [b] } hsafe hclose
              (by simp only [List.length_append, List.length_cons, List.length_nil]; omega)
              (by simp only [List.length_append, List.length_cons, List.length_nil]; omega)
            exact ⟨s2, by simpa [processMsgs, handleFrame, hlt] using h1⟩
          · exact ⟨s, by simp [processMsgs, handleFrame, hlt]⟩
        | response r =>
          cases r with
          | newSubscription eid sid =>
            simp only [subSafe] at hsafe
            simp only [hasClose] at hclose
            simp only [bacList] at hover
            simpa [processMsgs, handleFrame] using
              ih { s with active_extractors := insertA sid eid s.active_extractors }
                hsafe hclose hle hover
          | subscriptionEnded sid =>
            simp only [hasClose] at hclose
            simp only [bacList] at hover
            cases hl : lookupA sid s.active_extractors with
            | none => simp [subSafe, hl] at hsafe
            | some e =>
              simp only [subSafe, hl] at hsafe
              simpa [processMsgs, handleFrame, hl] using
                ih { s with active_extractors := removeA sid s.active_extractors }
                  hsafe hclose hle hover
    | ping p =>
      simp only [subSafe] at hsafe
      simp only [hasClose] at hclose
      simp only [bacList] at hover
      simpa [processMsgs, handleFrame] using
        ih { s with pongs_sent := s.pongs_sent + 1 } hsafe hclose hle hover
    | pong p =>
      simp only [subSafe] at hsafe
      simp only [hasClose] at hclose
      simp only [bacList] at hover
      simpa [processMsgs, handleFrame] using ih s hsafe hclose hle hover
    | close => simp [hasClose] at hclose
    | other =>
      simp only [subSafe] at hsafe
      simp only [hasClose] at hclose
      simp only [bacList] at hover
      simpa [processMsgs, handleFrame] using ih s hsafe hclose hle hover

/-- Evaluation of `update_state_go` on a single-entry update map whose
address is tracked. -/
theorem update_state_go_single (a : Nat) (u : StateUpdate) (db : SimulationDB)
    (acc : List (Nat × StateUpdate)) (acct : DbAccount)
    (hacct : lookupA a db.accounts = some acct) :
    update_state_go [(a, u)] db acc =
      ({ db with accounts := insertA a (applyAccountUpdate u acct).1 db.accounts },
       insertA a (applyAccountUpdate u acct).2 acc) := by
  simp [update_state_go, hacct]

/-- Evaluation of `update_state` on a single-entry update map whose
address is tracked. -/
theorem update_state_single (db : SimulationDB) (a : Nat) (u : StateUpdate)
    (blk : BlockHeader) (acct : DbAccount)
    (hacct : lookupA a db.accounts = some acct) :
    update_state db [(a, u)] blk =
      ({ db with
          external_block := some blk.number
          block := some blk
          accounts := insertA a (applyAccountUpdate u acct).1 db.accounts },
       [(a, (applyAccountUpdate u acct).2)]) :=
  update_state_go_single a u
    { db with
        external_block := some blk.number
        block := some blk } [] acct hacct

/-! ## Claim theorems -/

/-- Claim C1, counterexample.  Store `dbC` tracks account 1 (`acctC`,
empty storage); the diff `uC` writes slot 2, which was absent before the
update.  The returned revert record has an empty storage map (the source
records a revert slot only when `HashMap::insert` returned a previous
value), so applying it leaves slot 2 at its updated value 5: the claimed
exact restoration of slots that were absent before the update fails. -/
theorem update_state_revert_absent_slot_cex :
    lookupA 1 dbC.accounts = some acctC ∧
    lookupA 2 acctC.storage = none ∧
    (update_state dbC [(1, uC)] blkC).2 =
      [(1, { storage := some [], balance := none, code := none })] ∧
    lookupA 1 (update_state (update_state dbC [(1, uC)] blkC).1
        (update_state dbC [(1, uC)] blkC).2 blkC).1.accounts ≠ some acctC := by
  refine ⟨rfl, rfl, rfl, ?_⟩
  decide

/-- Claim C1 (amended): for every tracked account and every StateUpdate
with distinct storage keys applied via `update_state`, applying the
returned revert record to the post-update state restores the account's
balance, nonce, its code whenever the account had code before the update,
and every slot that was present in the account's storage before the
update (absent slots created by the update are not reverted). -/
theorem update_state_revert_roundtrip (db : SimulationDB) (a : Nat) (acct : DbAccount)
    (u : StateUpdate) (blk blk2 : BlockHeader)
    (hacct : lookupA a db.accounts = some acct)
    (hnodup : (((u.storage.getD []).map Prod.fst)).Nodup) :
    ∃ acct2,
      lookupA a (update_state (update_state db [(a, u)] blk).1
          (update_state db [(a, u)] blk).2 blk2).1.accounts = some acct2 ∧
      acct2.info.balance = acct.info.balance ∧
      acct2.info.nonce = acct.info.nonce ∧
      (acct.info.code.isSome = true → acct2.info.code = acct.info.code) ∧
      (∀ slot v, lookupA slot acct.storage = some v →
        lookupA slot acct2.storage = some v) := by
  obtain ⟨hb, hn, hc, hs⟩ := applyAccountUpdate_roundtrip acct u hnodup
  refine ⟨_, ?_, hb, hn, hc, hs⟩
  have e1 := update_state_single db a u blk acct hacct
  have hacct1 : lookupA a (update_state db [(a, u)] blk).1.accounts
      = some (applyAccountUpdate u acct).1 := by
    rw [e1]
    exact lookupA_insertA_self db.accounts a _
  have e0 : (update_state db [(a, u)] blk).2 = [(a, (applyAccountUpdate u acct).2)] := by
    rw [e1]
  have e2 := update_state_single (update_state db [(a, u)] blk).1 a
    (applyAccountUpdate u acct).2 blk2 (applyAccountUpdate u acct).1 hacct1
  rw [e0, e2]
  exact lookupA_insertA_self _ a _

/-- Claim C1, witness for the amended round-trip theorem at a concrete
tracked account with storage, balance and code all updated. -/
theorem update_state_revert_roundtrip_witness :
    ∃ acct2,
      lookupA 1 (update_state (update_state dbW [(1, uW)] blkC).1
          (update_state dbW [(1, uW)] blkC).2 blkC).1.accounts = some acct2 ∧
      acct2.info.balance = acctW.info.balance ∧
      acct2.info.nonce = acctW.info.nonce ∧
      (acctW.info.code.isSome = true → acct2.info.code = acctW.info.code) ∧
      (∀ slot v, lookupA slot acctW.storage = some v →
        lookupA slot acct2.storage = some v) :=
  update_state_revert_roundtrip dbW 1 acctW uW blkC blkC (by rfl) (by decide)

/-- Claim C2: the active `SimulationDB::storage` forwards every read to
the external database, even for a mocked address — the mocked-account
zero-read short circuit is commented out in the source.  At the concrete
failing input (address 5 mocked, external source answering 7 for every
slot), the read returns 7, not 0, and issues the external query. -/
theorem storage_queries_external_even_when_mocked :
    dbM.mocked_accounts = [5] ∧
    SimulationDB.storage dbM 5 1 = (7, dbM, [(5, 1)]) ∧
    (SimulationDB.storage dbM 5 1).1 ≠ 0 := by
  refine ⟨rfl, rfl, ?_⟩
  decide

/-- Claim C3: the active `SimulationDB::basic` forwards the query to the
external database but records nothing — the `track_miss` call is
commented out in the source, so after a cache-miss read of address 9 the
`missed_accounts` set is still empty and the store's account cache is
unchanged. -/
theorem basic_does_not_record_miss :
    dbB3.missed_accounts = [] ∧
    SimulationDB.basic dbB3 9 = (some acctB3, dbB3) ∧
    (SimulationDB.basic dbB3 9).2.missed_accounts = [] ∧
    (SimulationDB.basic dbB3 9).2.accounts = [] :=
  ⟨rfl, rfl, rfl, rfl⟩

/-- Claim C5: an update addressed to the untracked address 7 is a silent
no-op.  The store keeps no account for 7 and the revert map has no entry
for 7; moreover the whole result of `update_state` is identical to the
result of applying an update map from which the untracked entry has been
dropped, so nothing observable reports the skip (the source holds only a
TODO comment where the warning should be raised). -/
theorem update_state_untracked_silent_noop :
    (update_state dbU [(7, uU)] blkC).1.accounts = [] ∧
    lookupA 7 (update_state dbU [(7, uU)] blkC).2 = none ∧
    update_state dbU [(7, uU)] blkC = update_state dbU [] blkC :=
  ⟨rfl, rfl, rfl⟩

/-- Claim C6: every unsupported operation — `code_by_hash`, `block_hash`,
and the `subscribe` / `unsubscribe` command senders — panics with an
explicit not-implemented message on every input. -/
theorem unsupported_operations_panic_not_implemented :
    ∀ (db : SimulationDB) (code_hash number : Nat) (c : TychoWsClientImpl)
      (eid : ExtractorIdentity) (sid : Nat),
      SimulationDB.code_by_hash db code_hash = .panics ("Not implemented") ∧
      SimulationDB.block_hash db number = .panics ("not yet implemented") ∧
      TychoWsClientImpl.subscribe c eid = .panics ("Not implemented") ∧
      TychoWsClientImpl.unsubscribe c sid = .panics ("Not implemented") :=
  fun _ _ _ _ _ _ => ⟨rfl, rfl, rfl, rfl⟩

/-- Claim C7: a text frame that fails to decode is skipped: the read loop
behaves exactly as if the malformed frame had not been received, for any
surrounding well-formed traffic and any loop state — so a malformed frame
never terminates the stream, never closes the output channel, and never
alters the events delivered for the frames around it. -/
theorem malformed_frame_skipped_stream_continues (pre post : List InMsg) (s : LoopState) :
    processMsgs (pre ++ malformedFrame :: post) s = processMsgs (pre ++ post) s := by
  induction pre generalizing s with
  | nil => simp [processMsgs, handleFrame, malformedFrame]
  | cons m rest ih =>
    simp only [List.cons_append, processMsgs]
    cases h : handleFrame m s with
    | cont s2 => exact ih s2
    | halt o => rfl

/-- Claim C4: for a frame sequence with no Close frame, subscription-safe
control traffic, and at most 30 (the channel capacity) state-change
events, `realtime_messages` hands the consumer exactly those events, in
arrival order, with no drops, no reordering and no batching. -/
theorem realtime_messages_delivers_in_order (frames : List InMsg)
    (hsafe : subSafe [] frames = true)
    (hclose : hasClose frames = false)
    (hcap : (bacList frames).length ≤ channelCapacity) :
    ∃ active, realtime_messages frames = some (bacList frames, active) := by
  obtain ⟨s2, h1, h2⟩ := processMsgs_finishes frames
    { sent := [], active_extractors := [], pongs_sent := 0 } hsafe hclose (by simpa using hcap)
  refine ⟨s2.active_extractors, ?_⟩
  simp [realtime_messages, h1, h2]

/-- Claim C4, witness: two state-change events interleaved with a ping
and a malformed frame are delivered in order. -/
theorem realtime_messages_delivers_in_order_witness :
    ∃ active,
      realtime_messages [bacFrame bac0, InMsg.ping [], malformedFrame, bacFrame bac0]
        = some (bacList [bacFrame bac0, InMsg.ping [], malformedFrame, bacFrame bac0], active) :=
  realtime_messages_delivers_in_order _ (by rfl) (by rfl) (by decide)

/-- Claim C8: subscription bookkeeping.  Processing
`NewSubscription(id=X, extractor=E)` inserts the pair so that `X` maps to
`E`; subsequently processing `SubscriptionEnded(id=X)` removes it (empty
map if `X` was the only entry); and processing `SubscriptionEnded` for an
id not in the map panics on the loop's `expect` instead of being
ignored. -/
theorem subscription_bookkeeping_invariant (s : LoopState) (X : Nat) (E : ExtractorIdentity)
    (hnodup : (s.active_extractors.map Prod.fst).Nodup) :
    (∃ s1, processMsgs [newSubscriptionFrame E X] s = .finished s1 ∧
        lookupA X s1.active_extractors = some E) ∧
    (∃ s2, processMsgs [newSubscriptionFrame E X, subscriptionEndedFrame X] s = .finished s2 ∧
        lookupA X s2.active_extractors = none ∧
        (s.active_extractors = [] → s2.active_extractors = [])) ∧
    (lookupA X s.active_extractors = none →
        processMsgs [subscriptionEndedFrame X] s
          = .panicked ("subscription id in active extractors")) := by
  refine ⟨?_, ?_, ?_⟩
  · refine ⟨{ s with active_extractors := insertA X E s.active_extractors }, ?_, ?_⟩
    · simp [processMsgs, handleFrame, newSubscriptionFrame]
    · exact lookupA_insertA_self s.active_extractors X E
  · refine ⟨{ s with
        active_extractors := removeA X (insertA X E s.active_extractors) }, ?_, ?_, ?_⟩
    · simp [processMsgs, handleFrame, newSubscriptionFrame, subscriptionEndedFrame,
        lookupA_insertA_self]
    · exact lookupA_removeA_self _ X (keys_nodup_insertA s.active_extractors X E hnodup)
    · intro h0
      rw [h0]
      simp [insertA, removeA]
  · intro hnone
    simp [processMsgs, handleFrame, subscriptionEndedFrame, hnone]

/-- Claim C8, witness: ending an unknown subscription id on an empty map
panics. -/
theorem subscription_bookkeeping_invariant_witness :
    processMsgs [subscriptionEndedFrame 1]
        { sent := [], active_extractors := [], pongs_sent := 0 }
      = .panicked ("subscription id in active extractors") :=
  (subscription_bookkeeping_invariant
    { sent := [], active_extractors := [], pongs_sent := 0 } 1 eid0 (by decide)).2.2 (by rfl)

/-- Claim C9: `realtime_messages` runs the whole read loop on the calling
thread and only returns the receiver after the loop ends, so no consumer
exists to drain the channel while the loop runs; a connection delivering
more than 30 state-change events (the channel capacity) therefore blocks
forever on the full channel, and the caller never obtains a receiver. -/
theorem realtime_messages_blocks_over_capacity (frames : List InMsg)
    (hsafe : subSafe [] frames = true)
    (hclose : hasClose frames = false)
    (hover : channelCapacity < (bacList frames).length) :
    realtime_messages frames = none ∧
    ∃ s2, processMsgs frames { sent := [], active_extractors := [], pongs_sent := 0 }
      = .blockedForever s2 := by
  obtain ⟨s2, h1⟩ := processMsgs_blocks frames
    { sent := [], active_extractors := [], pongs_sent := 0 } hsafe hclose
    (Nat.zero_le _) (by simpa using hover)
  exact ⟨by simp [realtime_messages, h1], ⟨s2, h1⟩⟩

/-- Claim C9, witness: a stream of 31 state-change events blocks forever
and the caller never obtains a receiver. -/
theorem realtime_messages_blocks_over_capacity_witness :
    realtime_messages (List.replicate 31 (bacFrame bac0)) = none ∧
    ∃ s2, processMsgs (List.replicate 31 (bacFrame bac0))
        { sent := [], active_extractors := [], pongs_sent := 0 } = .blockedForever s2 :=
  realtime_messages_blocks_over_capacity _ (by decide) (by decide) (by decide)

/-- Claim C10: for representable inputs, `add_liquidity_delta` returns
the exact integer sum `x + y` whenever `y > i128::MIN` and
`0 ≤ x + y < 2 ^ 128`; outside that precondition — in particular when
`y < 0` with `|y| > x`, or when `x + y ≥ 2 ^ 128` — the unchecked u128
subtraction or addition wraps and the result differs from the exact sum
(no guarded error is returned). -/
theorem add_liquidity_delta_exact_or_wraps (x : Nat) (y : Int)
    (hx : x < 2 ^ 128) (hy1 : -(2 : Int) ^ 127 ≤ y) (hy2 : y < 2 ^ 127) :
    (-(2 : Int) ^ 127 < y → 0 ≤ (x : Int) + y → (x : Int) + y < 2 ^ 128 →
        ((add_liquidity_delta x y : Nat) : Int) = (x : Int) + y) ∧
    (y < 0 → (x : Int) < -y →
        ((add_liquidity_delta x y : Nat) : Int) ≠ (x : Int) + y) ∧
    (2 ^ 128 ≤ (x : Int) + y →
        ((add_liquidity_delta x y : Nat) : Int) ≠ (x : Int) + y) := by
  unfold add_liquidity_delta
  by_cases hneg : y < 0
  · rw [if_pos hneg]
    refine ⟨fun h1 h2 h3 => ?_, fun h4 h5 => ?_, fun h6 => ?_⟩
    all_goals omega
  · rw [if_neg hneg]
    refine ⟨fun h1 h2 h3 => ?_, fun h4 h5 => ?_, fun h6 => ?_⟩
    all_goals omega

/-- Claim C10, witness: the in-range case from the source's own test,
`add_liquidity_delta(10000, -1000) = 9000`. -/
theorem add_liquidity_delta_exact_or_wraps_witness :
    ((add_liquidity_delta 10000 (-1000) : Nat) : Int) = ((10000 : Nat) : Int) + (-1000 : Int) :=
  (add_liquidity_delta_exact_or_wraps 10000 (-1000) (by norm_num) (by norm_num)
    (by norm_num)).1 (by norm_num) (by norm_num) (by norm_num)
